import Mathlib

/-
Verification of the CSV-cleaning/aggregation ETL pipeline
(`ETL_Exercise.py`, `Simple_ETL_Exercise.py`).

The pipeline is embedded shallowly: a pandas `DataFrame` becomes a schema
(list of column names) plus rows of cells aligned positionally with the
schema; a cell is text, a number (modelled as a rational), or a missing
value (pandas `NaN`).  Each stage of `CSVCleaner` / `Transformations`
becomes a Lean function on that representation; exceptions become
`Except`, and the mutation of `self.data` is made explicit where its
before/after contents matter.
-/

namespace ETL

/-- A cell of a tabular dataset: text, a number, or a missing value
(pandas `NaN`).  Numbers are modelled as rationals; the decimal values the
pipeline exercises are represented exactly. -/
inductive Cell where
  | text : String → Cell
  | num : ℚ → Cell
  | missing : Cell
deriving DecidableEq

/-- A dataset (pandas `DataFrame`): an ordered schema of column names plus
an ordered list of rows whose cells align positionally with the schema. -/
structure Df where
  cols : List String
  rows : List (List Cell)
deriving DecidableEq

/-- `row[col]`: the cell of row `r` at column `name`, given the dataset's
schema; out-of-schema lookups default to a missing value. -/
def getCell (cols : List String) (r : List Cell) (name : String) : Cell :=
  r.getD (cols.indexOf name) Cell.missing

/-- The cells of one named column, in row order (a pandas `Series`). -/
def columnCells (df : Df) (name : String) : List Cell :=
  df.rows.map (fun r => getCell df.cols r name)

/-- `df[name] = vals`: pandas column assignment.  Overwrites the column in
place when it already exists, otherwise appends it as the last column. -/
def setColumn (df : Df) (name : String) (vals : List Cell) : Df :=
  if name ∈ df.cols then
    { df with rows := df.rows.zipWith (fun r v => r.set (df.cols.indexOf name) v) vals }
  else
    { cols := df.cols ++ [name], rows := df.rows.zipWith (fun r v => r ++ [v]) vals }

/-- `pd.notna`: whether a cell is not missing. -/
def notna (c : Cell) : Bool := c != Cell.missing

/-- Errors of `CSVCleaner.read_data`: `FileNotFoundError` (re-raised with
the path) and the `ValueError('The input CSV contains no data.')` that the
specification's taxonomy names `EmptyDatasetError`. -/
inductive LoadError where
  | fileNotFound : String → LoadError
  | emptyDataset : LoadError
deriving DecidableEq

/-- `CSVCleaner.read_data`: reads the CSV at `path` and fails when the file
is absent or the parsed dataset is empty; otherwise the parsed dataset is
returned as is (no filtering).  The file system and the delimited-text
codec are external collaborators, modelled as a partial map `fs` from
paths to already-parsed datasets. -/
def read_data (fs : String → Option Df) (path : String) : Except LoadError Df :=
  match fs path with
  | none => Except.error (LoadError.fileNotFound path)
  | some df =>
      if df.rows.isEmpty then Except.error LoadError.emptyDataset
      else Except.ok df

/-- `CSVCleaner.remove_rows`: `self.data.dropna(inplace=True)` — drops each
row containing at least one missing value, keeping the rest in order. -/
def remove_rows (df : Df) : Df :=
  { df with rows := df.rows.filter (fun r => r.all notna) }

/-- Whitespace as stripped by Python's `str.strip()`. -/
def isSpaceChar (c : Char) : Bool :=
  c = ' ' || c = '\t' || c = '\n' || c = '\r' || c = '\x0b' || c = '\x0c'

/-- Leading/trailing-whitespace trimming (`str.strip()`). -/
def trimChars (cs : List Char) : List Char :=
  ((cs.dropWhile isSpaceChar).reverse.dropWhile isSpaceChar).reverse

/-- ASCII lowercasing of one character (`str.lower()` on the pipeline's
ASCII data). -/
def lowerChar (c : Char) : Char :=
  if 65 ≤ c.toNat ∧ c.toNat ≤ 90 then Char.ofNat (c.toNat + 32) else c

/-- `str.strip().lower()`: the normalization applied to each column's
string form before keying. -/
def normStr (s : String) : String :=
  String.mk ((trimChars s.data).map lowerChar)

/-- Python `str(value)` for a cell.  The pipeline computes keys before
numeric coercion, so keys only ever see text cells; numeric cells use the
rational's canonical rendering and a missing cell prints as `nan`. -/
def cellToString : Cell → String
  | Cell.text s => s
  | Cell.num q => toString q
  | Cell.missing => "nan"

/-- `"_".join(...)`: concatenation with a literal underscore separator. -/
def joinUnderscore : List String → String
  | [] => ""
  | [s] => s
  | s :: rest => s ++ "_" ++ joinUnderscore rest

/-- The normalized string form of one selected cell as contributed to the
key, `none` when the cell is missing (missing cells are excluded from the
concatenation). -/
def normCell (c : Cell) : Option String :=
  if notna c then some (normStr (cellToString c)) else none

/-- The canonical key string of `generate_uniqueID` for one row: normalized
string forms of the selected columns' non-missing cells, joined with `_`.
The source feeds this string to `md5(...).hexdigest()`; the digest is a
fixed deterministic function of this string, so key equality is modelled
by equality of the canonical string (the specification assumes no digest
collisions at the chosen width). -/
def rowKey (selected : List String) (cols : List String) (r : List Cell) : String :=
  joinUnderscore (selected.filterMap (fun c => normCell (getCell cols r c)))

/-- `CSVCleaner.generate_uniqueID(columns)`: the selected columns default
to all current columns (including a pre-existing `unique_id` column, if
any); the key of each row is computed and assigned to column
`unique_id`. -/
def generate_uniqueID (df : Df) (columns : Option (List String)) : Df :=
  let selected := columns.getD df.cols
  setColumn df "unique_id" (df.rows.map (fun r => Cell.text (rowKey selected df.cols r)))

/-- Keep, for each key, only the first row carrying it (`keep='first'`). -/
def keepFirst (key : List Cell → Cell) : List (List Cell) → List Cell → List (List Cell)
  | [], _ => []
  | r :: rs, seen =>
    if key r ∈ seen then keepFirst key rs seen
    else r :: keepFirst key rs (key r :: seen)

/-- `self.data.drop_duplicates(subset=['unique_id'], keep='first')`: the
dataset with only the first row of each `unique_id` value retained. -/
def drop_duplicates (df : Df) : Df :=
  { df with rows := keepFirst (fun r => getCell df.cols r "unique_id") df.rows [] }

/-- `CSVCleaner.check_duplicates`: evaluates
`self.data.drop_duplicates(subset=['unique_id'], keep='first')` but
neither assigns the result nor passes `inplace=True`, so the working
dataset is returned unchanged (and the removed-row count it reports is
always zero). -/
def check_duplicates (df : Df) : Df :=
  let _dropped := drop_duplicates df
  df

/-- Digit-string value: `some` of the decimal value when every character
is a digit (the empty string giving 0), otherwise `none`. -/
def digitsVal (cs : List Char) : Option Nat :=
  if cs.all Char.isDigit then
    some (cs.foldl (fun a c => a * 10 + (c.toNat - 48)) 0)
  else none

/-- Value of a decimal literal split at the point: `ip` integer digits,
`fp` fraction digits; at least one digit overall is required. -/
def parseDecParts (ip fp : List Char) : Option ℚ :=
  if ip.isEmpty && fp.isEmpty then none
  else do
    let i ← digitsVal ip
    let f ← digitsVal fp
    if fp.isEmpty then pure (i : ℚ)
    else pure ((i : ℚ) + (f : ℚ) / ((10 : ℚ) ^ fp.length))

/-- An unsigned decimal literal: digits with at most one point. -/
def parseSignless (cs : List Char) : Option ℚ :=
  match cs.splitOn '.' with
  | [ip] => parseDecParts ip []
  | [ip, fp] => parseDecParts ip fp
  | _ => none

/-- String-to-number parsing as performed per element by
`pd.to_numeric(..., errors='raise')` on the decimal forms the pipeline
exercises: optional surrounding whitespace, optional sign, digits with an
optional fraction part; anything else fails. -/
def parseDec (s : String) : Option ℚ :=
  match (trimChars s.data) with
  | '-' :: cs => (parseSignless cs).map (fun q => -q)
  | '+' :: cs => parseSignless cs
  | cs => parseSignless cs

/-- Element behaviour of `pd.to_numeric(column, errors='raise')`: numbers
pass through, `NaN` stays `NaN` (as a float64 `NaN`), text parses as a
decimal number or fails. -/
def parseAmount : Cell → Option Cell
  | Cell.num q => some (Cell.num q)
  | Cell.missing => some Cell.missing
  | Cell.text s => (parseDec s).map Cell.num

/-- Whether a cell belongs to a numeric (float64) column: pandas stores
missing values as float64 `NaN`, so numbers and missing cells are of
float dtype and text is not (this is the dtype check the repository's own
`test_convert_transaction_amount` performs). -/
def isNumericCell : Cell → Bool
  | Cell.text _ => false
  | _ => true

/-- Whether a cell is an actual number. -/
def isNumCell : Cell → Bool
  | Cell.num _ => true
  | _ => false

/-- Position and value of the first cell `pd.to_numeric` fails to parse,
if any (`errors='raise'` reports the offending value and position). -/
def firstFailure : List Cell → Option (Nat × Cell)
  | [] => none
  | c :: cs =>
    match parseAmount c with
    | some _ => (firstFailure cs).map (fun p => (p.1 + 1, p.2))
    | none => some (0, c)

/-- The error raised by `pd.to_numeric(..., errors='raise')`, named
`AmountParseError` by the specification's taxonomy: it identifies the
offending position and value. -/
structure AmountParseError where
  pos : Nat
  value : Cell
deriving DecidableEq

deriving instance DecidableEq for Except

/-- `CSVCleaner.convert_transaction_amount`:
`self.data['transaction_amount'] = pd.to_numeric(self.data['transaction_amount'], errors='raise')`.
`pd.to_numeric` converts the whole column before the assignment happens;
if any value fails to parse it raises instead, identifying the offending
position and value. -/
def convert_transaction_amount (df : Df) : Except AmountParseError Df :=
  let cells := columnCells df "transaction_amount"
  match firstFailure cells with
  | some pv => Except.error ⟨pv.1, pv.2⟩
  | none =>
      Except.ok (setColumn df "transaction_amount"
        (cells.map (fun c => (parseAmount c).getD c)))

/-- The mutable `self.data` across the `convert_transaction_amount` call:
the column assignment only happens once `pd.to_numeric` has returned, so
when it raises, `self.data` is exactly as before the call. -/
def convertSelf (df : Df) : Df × Option AmountParseError :=
  match convert_transaction_amount df with
  | Except.ok d => (d, none)
  | Except.error e => (df, some e)

/-- `save_data(output)`: `self.data.to_csv(output, index=False)` — the
persisted file carries exactly the dataset's schema as header plus its
rows, with no synthetic index column; modelled as the dataset that ends
up in the file. -/
def save_data (df : Df) : Df := df

/-- The first pipeline half as driven by `main()`: `remove_rows`,
`generate_uniqueID()` (default columns), `check_duplicates`,
`convert_transaction_amount`, then `save_data`; the result is the dataset
persisted to the cleaned output file. -/
def cleanPipeline (df : Df) : Except AmountParseError Df :=
  (convert_transaction_amount
    (check_duplicates (generate_uniqueID (remove_rows df) none))).map save_data

/-- Ordering rank of a cell's kind, for sorting group keys. -/
def cellRank : Cell → Nat
  | Cell.missing => 0
  | Cell.num _ => 1
  | Cell.text _ => 2

/-- Total order on cells used for the sorted group keys: text compares
lexicographically, numbers numerically, different kinds by rank. -/
def cellLe (a b : Cell) : Bool :=
  match a, b with
  | Cell.text s, Cell.text t => decide (s ≤ t)
  | Cell.num p, Cell.num q => decide (p ≤ q)
  | _, _ => decide (cellRank a ≤ cellRank b)

/-- The order `cellLe` as a relation. -/
def CellLe (a b : Cell) : Prop := cellLe a b = true

instance : DecidableRel CellLe :=
  fun a b => inferInstanceAs (Decidable (cellLe a b = true))

instance : IsTotal Cell CellLe := ⟨by
  intro a b
  cases a <;> cases b <;>
    simp only [CellLe, cellLe, cellRank, decide_eq_true_eq] <;>
    exact le_total _ _⟩

instance : IsTrans Cell CellLe := ⟨by
  intro a b c hab hbc
  cases a <;> cases b <;> cases c <;>
    simp only [CellLe, cellLe, cellRank, decide_eq_true_eq] at hab hbc ⊢ <;>
    first
    | rfl
    | omega
    | exact le_trans hab hbc⟩

/-- The group key of a row: its `customer_id` cell. -/
def keyOf (df : Df) (r : List Cell) : Cell := getCell df.cols r "customer_id"

/-- The numeric value of a cell; the aggregator only ever sums cells of
the numeric column of a cleaned dataset, where every cell is a number. -/
def cellVal : Cell → ℚ
  | Cell.num q => q
  | _ => 0

/-- The amount of a row: the numeric value of its `transaction_amount`
cell. -/
def amtOf (df : Df) (r : List Cell) : ℚ :=
  cellVal (getCell df.cols r "transaction_amount")

/-- `Transformations.group_by_customer_id`:
`self.data.groupby('customer_id', as_index=False)['transaction_amount'].sum()`
followed by renaming `transaction_amount` to `total_transaction_amount`.
pandas `groupby` semantics: rows with a missing key are dropped
(`dropna=True`), the distinct keys are emitted in ascending sorted order
(`sort=True`), and each output row pairs a key with the sum of its
group's amounts. -/
def group_by_customer_id (df : Df) : Df :=
  let ks := ((df.rows.map (keyOf df)).filter notna).dedup
  { cols := ["customer_id", "total_transaction_amount"],
    rows := (List.insertionSort CellLe ks).map (fun k =>
      [k, Cell.num (((df.rows.filter (fun r => keyOf df r == k)).map (amtOf df)).sum)]) }

/-- Sum of the `total_transaction_amount` column of an aggregate dataset
(its second column). -/
def sumTotals (df : Df) : ℚ :=
  (df.rows.map (fun r => cellVal (r.getD 1 Cell.missing))).sum

/-- Sum of the `transaction_amount` column of a dataset. -/
def sumAmts (df : Df) : ℚ :=
  (df.rows.map (amtOf df)).sum

/-- The Deduplicator stage as composed by `main()`: key generation with
the default (all) columns followed by duplicate removal. -/
def dedupStage (df : Df) : Df := check_duplicates (generate_uniqueID df none)

/-- A dataset with two rows of identical content. -/
def dfDup : Df := ⟨["a"], [[Cell.text "x"], [Cell.text "x"]]⟩

/-- A one-row dataset. -/
def dfOne : Df := ⟨["a"], [[Cell.text "x"]]⟩

/-- A row whose first cell contains an underscore. -/
def rowA : List Cell := [Cell.text "a_b", Cell.text "c"]

/-- A row differing from `rowA` in both columns. -/
def rowB : List Cell := [Cell.text "a", Cell.text "b_c"]

/-- A two-column schema. -/
def colsXY : List String := ["x", "y"]

/-- A one-cell row needing trimming and lowercasing. -/
def rowW7a : List Cell := [Cell.text "  A "]

/-- A one-cell row already normalized. -/
def rowW7b : List Cell := [Cell.text "a"]

/-- A one-column schema. -/
def colsW7 : List String := ["x"]

/-- A one-row input for the cleaning pipeline. -/
def dfIn4 : Df := ⟨["customer_id", "transaction_amount"], [[Cell.text "A", Cell.text "2"]]⟩

/-- What the cleaning pipeline persists for `dfIn4`. -/
def dfOut4 : Df := ⟨["customer_id", "transaction_amount", "unique_id"],
  [[Cell.text "A", Cell.num 2, Cell.text "a_2"]]⟩

/-- A dataset whose amount column parses throughout. -/
def dfW2 : Df := ⟨["transaction_amount"], [[Cell.text "20"], [Cell.missing]]⟩

/-- The numeric form of `dfW2`. -/
def dfW2ok : Df := ⟨["transaction_amount"], [[Cell.num 20], [Cell.missing]]⟩

/-- A small cleaned dataset with a repeated key. -/
def dfW3 : Df := ⟨["customer_id", "transaction_amount"],
  [[Cell.text "B", Cell.num 2], [Cell.text "A", Cell.num 3]]⟩

/-- A non-empty parsed dataset, for exercising the loader. -/
def dfW6 : Df := ⟨["customer_id"], [[Cell.text "A"]]⟩

/-- A file system holding `dfW6` at the expected input path. -/
def fsW : String → Option Df :=
  fun p => if p = "input_data.csv" then some dfW6 else none

end ETL

namespace ETL

theorem getD_set_self {α : Type} (l : List α) (i : Nat) (a d : α) :
    (l.set i a).getD i d = if i < l.length then a else d := by
  by_cases h : i < l.length
  · rw [if_pos h, List.getD_eq_getElem?_getD, List.getElem?_set_self h, Option.getD_some]
  · rw [if_neg h, List.set_eq_of_length_le (Nat.le_of_not_lt h),
      List.getD_eq_default _ _ (Nat.le_of_not_lt h)]

theorem zipWith_map_same {α β γ : Type} (f : α → β → γ) (h : α → β) :
    ∀ l : List α, l.zipWith f (l.map h) = l.map (fun a => f a (h a))
  | [] => rfl
  | a :: l => by simp [zipWith_map_same f h l]

/-- C5: for every dataset, every row surviving `remove_rows` has no
missing value in any column, at most as many rows survive as were input,
and the surviving rows keep their relative order (they form a sublist of
the input rows). -/
theorem remove_rows_spec (df : Df) :
    ((remove_rows df).rows.all (fun r => r.all notna)) = true ∧
    (remove_rows df).rows.length ≤ df.rows.length ∧
    (remove_rows df).rows.Sublist df.rows := by
  refine ⟨?_, ?_, ?_⟩
  · rw [List.all_eq_true]
    intro r hr
    exact (List.mem_filter.mp hr).2
  · exact List.length_filter_le _ _
  · exact List.filter_sublist _

/-- C6: the loader fails with `FileNotFoundError` when the path does not
resolve, fails with the empty-dataset error when the parsed dataset has
zero rows, and otherwise returns the parsed dataset exactly as it is. -/
theorem read_data_spec (fs : String → Option Df) (path : String) :
    (fs path = none → read_data fs path = Except.error (LoadError.fileNotFound path)) ∧
    (∀ df, fs path = some df → df.rows = [] →
      read_data fs path = Except.error LoadError.emptyDataset) ∧
    (∀ df, fs path = some df → df.rows ≠ [] → read_data fs path = Except.ok df) := by
  refine ⟨?_, ?_, ?_⟩
  · intro h; simp [read_data, h]
  · intro df h hrows; simp [read_data, h, hrows]
  · intro df h hrows; simp [read_data, h, List.isEmpty_iff, hrows]

theorem read_data_spec_witness :
    (fsW "input_data.csv" = some dfW6 ∧ dfW6.rows ≠ []) ∧
    read_data fsW "input_data.csv" = Except.ok dfW6 :=
  ⟨⟨by decide, by decide⟩,
    (read_data_spec fsW "input_data.csv").2.2 dfW6 (by decide) (by decide)⟩

/-- C1 fails on the code: `check_duplicates` computes `drop_duplicates`
but never retains the result, so on a dataset with two content-identical
rows the stage returns its working dataset unchanged, two rows still
share the same deduplication key afterwards, and only the discarded
value had the duplicate removed. -/
theorem check_duplicates_is_noop :
    check_duplicates (generate_uniqueID dfDup none) = generate_uniqueID dfDup none ∧
    ¬ (columnCells (check_duplicates (generate_uniqueID dfDup none)) "unique_id").Nodup ∧
    (drop_duplicates (generate_uniqueID dfDup none)).rows.length = 1 := by decide

/-- C8 fails on the code: applying the Deduplicator stage to its own
output is not a no-op.  `check_duplicates` never drops anything, and
`generate_uniqueID`'s default column list now includes the `unique_id`
column added by the first application, so the second application rewrites
every key (the old key is folded into the new one). -/
theorem deduplicator_not_idempotent :
    dedupStage (dedupStage dfOne) ≠ dedupStage dfOne := by decide

/-- C7 fails in its uniqueness half: `rowA` and `rowB` differ in every
selected column after trim/lowercase normalization, yet their canonical
key strings coincide (the underscore separator is ambiguous), hence so do
their digests. -/
theorem unique_key_collision :
    normCell (getCell colsXY rowA "x") ≠ normCell (getCell colsXY rowB "x") ∧
    rowKey colsXY colsXY rowA = rowKey colsXY colsXY rowB := by decide

/-- C7 (amended): the deduplication key is a deterministic function of
the normalized selected columns — two rows equal in every selected column
after trim/lowercase normalization (and in missingness) get equal keys. -/
theorem rowKey_deterministic (selected cols : List String) (r1 r2 : List Cell)
    (h : ∀ c ∈ selected, normCell (getCell cols r1 c) = normCell (getCell cols r2 c)) :
    rowKey selected cols r1 = rowKey selected cols r2 := by
  unfold rowKey
  exact congrArg joinUnderscore (List.filterMap_congr h)

theorem rowKey_deterministic_witness :
    (∀ c ∈ colsW7, normCell (getCell colsW7 rowW7a c) = normCell (getCell colsW7 rowW7b c)) ∧
    rowKey colsW7 colsW7 rowW7a = rowKey colsW7 colsW7 rowW7b :=
  ⟨by decide, rowKey_deterministic colsW7 colsW7 rowW7a rowW7b (by decide)⟩

theorem parseAmount_numeric (c c2 : Cell) (h : parseAmount c = some c2) :
    isNumericCell c2 = true := by
  cases c with
  | text s =>
      simp only [parseAmount, Option.map_eq_some'] at h
      obtain ⟨q, _, rfl⟩ := h
      rfl
  | num q =>
      simp only [parseAmount, Option.some.injEq] at h
      subst h; rfl
  | missing =>
      simp only [parseAmount, Option.some.injEq] at h
      subst h; rfl

theorem firstFailure_none : ∀ (cs : List Cell), firstFailure cs = none →
    ∀ c ∈ cs, ∃ c2, parseAmount c = some c2
  | [], _, c, hc => absurd hc (List.not_mem_nil c)
  | x :: xs, h, c, hc => by
      unfold firstFailure at h
      cases hpa : parseAmount x with
      | none => rw [hpa] at h; cases h
      | some y =>
          rw [hpa, Option.map_eq_none'] at h
          rcases List.mem_cons.mp hc with rfl | hmem
          · exact ⟨y, hpa⟩
          · exact firstFailure_none xs h c hmem

theorem firstFailure_some : ∀ (cs : List Cell) (i : Nat) (c : Cell),
    firstFailure cs = some (i, c) →
    cs.getD i Cell.missing = c ∧ parseAmount c = none
  | [], _, _, h => by cases h
  | x :: xs, i, c, h => by
      unfold firstFailure at h
      cases hpa : parseAmount x with
      | none =>
          rw [hpa] at h
          injection h with h2
          injection h2 with ha hb
          subst ha; subst hb
          exact ⟨rfl, hpa⟩
      | some y =>
          rw [hpa] at h
          cases hff : firstFailure xs with
          | none => rw [hff] at h; cases h
          | some p =>
              rw [hff, Option.map_some'] at h
              injection h with h2
              injection h2 with ha hb
              subst ha; subst hb
              have hrec := firstFailure_some xs p.1 p.2 (by rw [hff])
              exact ⟨hrec.1, hrec.2⟩

theorem setColumn_cols_of_mem (df : Df) (name : String) (vals : List Cell)
    (h : name ∈ df.cols) : (setColumn df name vals).cols = df.cols := by
  unfold setColumn
  rw [if_pos h]

theorem setColumn_cols_of_not_mem (df : Df) (name : String) (vals : List Cell)
    (h : name ∉ df.cols) : (setColumn df name vals).cols = df.cols ++ [name] := by
  unfold setColumn
  rw [if_neg h]

theorem column_after_set (df : Df) (name : String) (g : Cell → Cell)
    (h : name ∈ df.cols) :
    columnCells (setColumn df name ((columnCells df name).map g)) name =
      df.rows.map (fun r =>
        if df.cols.indexOf name < r.length then g (getCell df.cols r name)
        else Cell.missing) := by
  unfold columnCells setColumn getCell
  rw [if_pos h]
  simp only [List.map_map]
  rw [zipWith_map_same]
  simp only [List.map_map]
  apply List.map_congr_left
  intro r _
  simp only [Function.comp]
  rw [getD_set_self]

/-- C2: the amount-coercion stage is atomic.  When it succeeds, the
schema is unchanged and the `transaction_amount` column holds only float
values afterwards; when it fails, the error identifies the offending
position and value (whose text does not parse) and `self.data` is exactly
as before the call — no row was partially coerced. -/
theorem convert_transaction_amount_atomic (df : Df)
    (hcol : "transaction_amount" ∈ df.cols) :
    (∀ d, convert_transaction_amount df = Except.ok d →
        convertSelf df = (d, none) ∧ d.cols = df.cols ∧
        (columnCells d "transaction_amount").all isNumericCell = true) ∧
    (∀ e, convert_transaction_amount df = Except.error e →
        convertSelf df = (df, some e) ∧
        (columnCells df "transaction_amount").getD e.pos Cell.missing = e.value ∧
        parseAmount e.value = none) := by
  constructor
  · intro d hok
    have hself : convertSelf df = (d, none) := by
      unfold convertSelf; rw [hok]
    have hmain : firstFailure (columnCells df "transaction_amount") = none ∧
        d = setColumn df "transaction_amount"
          ((columnCells df "transaction_amount").map (fun c => (parseAmount c).getD c)) := by
      simp only [convert_transaction_amount] at hok
      cases hff : firstFailure (columnCells df "transaction_amount") with
      | some pv => rw [hff] at hok; cases hok
      | none =>
          rw [hff] at hok
          injection hok with h2
          exact ⟨rfl, h2.symm⟩
    obtain ⟨hff, hd⟩ := hmain
    subst hd
    refine ⟨hself, setColumn_cols_of_mem _ _ _ hcol, ?_⟩
    rw [List.all_eq_true]
    intro c hc
    rw [column_after_set df _ _ hcol] at hc
    obtain ⟨r, hr, hcr⟩ := List.mem_map.mp hc
    by_cases hlen : df.cols.indexOf "transaction_amount" < r.length
    · rw [if_pos hlen] at hcr
      subst hcr
      obtain ⟨c2, hc2⟩ := firstFailure_none _ hff (getCell df.cols r "transaction_amount")
        (List.mem_map_of_mem _ hr)
      rw [hc2, Option.getD_some]
      exact parseAmount_numeric _ _ hc2
    · rw [if_neg hlen] at hcr
      subst hcr
      rfl
  · intro e herr
    have hself : convertSelf df = (df, some e) := by
      unfold convertSelf; rw [herr]
    have hmain : firstFailure (columnCells df "transaction_amount") = some (e.pos, e.value) := by
      simp only [convert_transaction_amount] at herr
      cases hff : firstFailure (columnCells df "transaction_amount") with
      | some pv =>
          rw [hff] at herr
          injection herr with h2
          rw [← h2]
      | none => rw [hff] at herr; cases herr
    obtain ⟨h1, h2⟩ := firstFailure_some _ _ _ hmain
    exact ⟨hself, h1, h2⟩

theorem convert_transaction_amount_atomic_witness :
    ("transaction_amount" ∈ dfW2.cols ∧
      convert_transaction_amount dfW2 = Except.ok dfW2ok) ∧
    (convertSelf dfW2 = (dfW2ok, none) ∧ dfW2ok.cols = dfW2.cols ∧
      (columnCells dfW2ok "transaction_amount").all isNumericCell = true) :=
  ⟨⟨by decide, by decide⟩,
    (convert_transaction_amount_atomic dfW2 (by decide)).1 dfW2ok (by decide)⟩

theorem check_duplicates_eq (df : Df) : check_duplicates df = df := rfl

theorem generate_uniqueID_cols (df : Df) (h : "unique_id" ∉ df.cols) :
    (generate_uniqueID df none).cols = df.cols ++ ["unique_id"] := by
  unfold generate_uniqueID
  exact setColumn_cols_of_not_mem _ _ _ h

theorem convert_ok_cols (df d : Df) (hok : convert_transaction_amount df = Except.ok d)
    (h : "transaction_amount" ∈ df.cols) : d.cols = df.cols := by
  simp only [convert_transaction_amount] at hok
  cases hff : firstFailure (columnCells df "transaction_amount") with
  | some pv => rw [hff] at hok; cases hok
  | none =>
      rw [hff] at hok
      injection hok with h2
      rw [← h2]
      exact setColumn_cols_of_mem _ _ _ h

/-- C4 fails on the code: on `dfIn4` the cleaning pipeline succeeds and
the persisted dataset carries a `unique_id` column — `save_data` writes
`self.data` as is, and `generate_uniqueID` left the key column in it, so
the cleaned file's schema is not the input's schema. -/
theorem cleaned_file_retains_unique_id :
    cleanPipeline dfIn4 = Except.ok dfOut4 ∧ "unique_id" ∈ dfOut4.cols := by decide

/-- C4 (amended): whenever the first pipeline half succeeds on an input
whose schema lacks `unique_id` and has the amount column, the persisted
cleaned dataset's schema is exactly the input's columns plus an appended
`unique_id` column — the deduplication key column is retained in the
externalized file. -/
theorem cleanPipeline_cols (df : Df) (h1 : "unique_id" ∉ df.cols)
    (h2 : "transaction_amount" ∈ df.cols) (d : Df)
    (hok : cleanPipeline df = Except.ok d) :
    d.cols = df.cols ++ ["unique_id"] := by
  unfold cleanPipeline at hok
  cases hcv : convert_transaction_amount
      (check_duplicates (generate_uniqueID (remove_rows df) none)) with
  | error e => rw [hcv] at hok; cases hok
  | ok dmid =>
      rw [hcv] at hok
      simp only [Except.map] at hok
      injection hok with h3
      subst h3
      have hmidcols : (check_duplicates (generate_uniqueID (remove_rows df) none)).cols
          = df.cols ++ ["unique_id"] := by
        rw [check_duplicates_eq]
        exact generate_uniqueID_cols (remove_rows df) h1
      have hta : "transaction_amount" ∈
          (check_duplicates (generate_uniqueID (remove_rows df) none)).cols := by
        rw [hmidcols]
        exact List.mem_append_left _ h2
      show dmid.cols = df.cols ++ ["unique_id"]
      rw [convert_ok_cols _ _ hcv hta, hmidcols]

theorem cleanPipeline_cols_witness :
    ("unique_id" ∉ dfIn4.cols ∧ "transaction_amount" ∈ dfIn4.cols ∧
      cleanPipeline dfIn4 = Except.ok dfOut4) ∧
    dfOut4.cols = dfIn4.cols ++ ["unique_id"] :=
  ⟨⟨by decide, by decide, by decide⟩,
    cleanPipeline_cols dfIn4 (by decide) (by decide) dfOut4 (by decide)⟩

theorem sum_map_filter_split {α : Type} (p : α → Bool) (f : α → ℚ) :
    ∀ l : List α,
      ((l.filter p).map f).sum + ((l.filter (fun a => !p a)).map f).sum = (l.map f).sum
  | [] => by simp
  | x :: l => by
      have ih := sum_map_filter_split p f l
      by_cases h : p x <;>
        simp [List.filter_cons, h, List.sum_cons] <;>
        linarith [ih]

theorem sum_groups {α : Type} (key : α → Cell) (f : α → ℚ) :
    ∀ ks : List Cell, ks.Nodup → ∀ l : List α, (∀ r ∈ l, key r ∈ ks) →
      (ks.map (fun k => ((l.filter (fun r => key r == k)).map f).sum)).sum = (l.map f).sum
  | [], _, l, hmem => by
      cases l with
      | nil => simp
      | cons r rs => exact absurd (hmem r (List.mem_cons_self r rs)) (List.not_mem_nil _)
  | k :: ks, hnd, l, hmem => by
      have hk : k ∉ ks := (List.nodup_cons.mp hnd).1
      have hnd2 : ks.Nodup := (List.nodup_cons.mp hnd).2
      have hcong : ∀ k2 ∈ ks,
          l.filter (fun r => key r == k2) =
          (l.filter (fun r => !(key r == k))).filter (fun r => key r == k2) := by
        intro k2 hk2
        rw [List.filter_filter]
        apply List.filter_congr
        intro r _
        by_cases h : key r = k2
        · have hne : ¬ k2 = k := fun hh => hk (hh ▸ hk2)
          simp [h, hne]
        · simp [h]
      have hmem2 : ∀ r ∈ l.filter (fun r => !(key r == k)), key r ∈ ks := by
        intro r hr
        obtain ⟨hrl, hbr⟩ := List.mem_filter.mp hr
        rcases List.mem_cons.mp (hmem r hrl) with heq | hin
        · rw [heq] at hbr; simp at hbr
        · exact hin
      have hmap : ks.map (fun k2 => ((l.filter (fun r => key r == k2)).map f).sum) =
          ks.map (fun k2 => (((l.filter (fun r => !(key r == k))).filter
            (fun r => key r == k2)).map f).sum) :=
        List.map_congr_left (fun k2 hk2 => by rw [hcong k2 hk2])
      rw [List.map_cons, List.sum_cons, hmap,
        sum_groups key f ks hnd2 _ hmem2,
        ← sum_map_filter_split (fun r => key r == k) f l]

theorem group_keys_eq (df : Df) :
    (group_by_customer_id df).rows.map (fun r => r.getD 0 Cell.missing) =
      List.insertionSort CellLe (((df.rows.map (keyOf df)).filter notna).dedup) := by
  unfold group_by_customer_id
  simp only [List.map_map, Function.comp]
  exact List.map_id' _

/-- C3: conservation law of aggregation — for a cleaned input dataset
(every key present, the amount column numeric), the sum of the
`total_transaction_amount` values in the aggregate output equals the sum
of the `transaction_amount` values in the input; the rational model makes
the equality exact, hence within any double-precision tolerance. -/
theorem aggregation_conservation (df : Df)
    (hkey : (columnCells df "customer_id").all notna = true)
    (hamt : (columnCells df "transaction_amount").all isNumCell = true) :
    sumTotals (group_by_customer_id df) = sumAmts df := by
  unfold sumTotals group_by_customer_id sumAmts
  simp only [List.map_map, Function.comp]
  show ((List.insertionSort CellLe (((df.rows.map (keyOf df)).filter notna).dedup)).map
      (fun k => ((df.rows.filter (fun r => keyOf df r == k)).map (amtOf df)).sum)).sum
    = (df.rows.map (amtOf df)).sum
  rw [List.Perm.sum_eq ((List.perm_insertionSort CellLe _).map _)]
  apply sum_groups (keyOf df) (amtOf df) _ (List.nodup_dedup _) df.rows
  intro r hr
  rw [List.mem_dedup, List.mem_filter]
  exact ⟨List.mem_map_of_mem _ hr,
    List.all_eq_true.mp hkey (keyOf df r) (List.mem_map_of_mem _ hr)⟩

theorem aggregation_conservation_witness :
    ((columnCells dfW3 "customer_id").all notna = true ∧
      (columnCells dfW3 "transaction_amount").all isNumCell = true) ∧
    sumTotals (group_by_customer_id dfW3) = sumAmts dfW3 :=
  ⟨⟨by decide, by decide⟩, aggregation_conservation dfW3 (by decide) (by decide)⟩

/-- C9: aggregator output shape — for an input with the key and amount
columns whose key column has no missing value, the output has exactly the
two columns key and total, every output row has two cells, and the output
keys are exactly the distinct input key values (grouped by exact cell
equality), each appearing once. -/
theorem aggregator_shape (df : Df)
    (hkeycol : "customer_id" ∈ df.cols)
    (hamtcol : "transaction_amount" ∈ df.cols)
    (hkey : (columnCells df "customer_id").all notna = true) :
    (group_by_customer_id df).cols = ["customer_id", "total_transaction_amount"] ∧
    (∀ r ∈ (group_by_customer_id df).rows, r.length = 2) ∧
    ((group_by_customer_id df).rows.map (fun r => r.getD 0 Cell.missing)).Nodup ∧
    (∀ k, k ∈ (group_by_customer_id df).rows.map (fun r => r.getD 0 Cell.missing) ↔
      k ∈ df.rows.map (keyOf df)) := by
  refine ⟨rfl, ?_, ?_, ?_⟩
  · intro r hr
    unfold group_by_customer_id at hr
    obtain ⟨k, _, hk⟩ := List.mem_map.mp hr
    rw [← hk]
    rfl
  · rw [group_keys_eq]
    exact ((List.perm_insertionSort CellLe _).nodup_iff).mpr (List.nodup_dedup _)
  · intro k
    rw [group_keys_eq, (List.perm_insertionSort CellLe _).mem_iff, List.mem_dedup,
      List.mem_filter]
    constructor
    · exact fun h => h.1
    · intro h
      exact ⟨h, List.all_eq_true.mp hkey k h⟩

theorem aggregator_shape_witness :
    ("customer_id" ∈ dfW3.cols ∧ "transaction_amount" ∈ dfW3.cols ∧
      (columnCells dfW3 "customer_id").all notna = true) ∧
    ((group_by_customer_id dfW3).cols = ["customer_id", "total_transaction_amount"] ∧
      (∀ r ∈ (group_by_customer_id dfW3).rows, r.length = 2) ∧
      ((group_by_customer_id dfW3).rows.map (fun r => r.getD 0 Cell.missing)).Nodup ∧
      (∀ k, k ∈ (group_by_customer_id dfW3).rows.map (fun r => r.getD 0 Cell.missing) ↔
        k ∈ dfW3.rows.map (keyOf dfW3))) :=
  ⟨⟨by decide, by decide, by decide⟩,
    aggregator_shape dfW3 (by decide) (by decide) (by decide)⟩

/-- C10: the aggregator's output rows are sorted in ascending order of
the key column's value for every input dataset — the grouping operation
emits the distinct keys in sorted order regardless of input row order. -/
theorem aggregator_sorted (df : Df) :
    ((group_by_customer_id df).rows.map (fun r => r.getD 0 Cell.missing)).Sorted CellLe := by
  rw [group_keys_eq]
  exact List.sorted_insertionSort CellLe _

end ETL
